import Mathlib

/-!
Verification of the Goals-Tracker core (scheduling, timer and session-log
engine), shallowly embedded from `src/src/App.tsx`.

Modelling conventions:
* Calendar dates are date-only values, represented by their day index
  (days since the Unix epoch, as `Int`).  `getDateOnly` in the source
  strips the time-of-day, so a day index is exactly the information the
  scheduling code computes with; `date.getDay()` becomes
  `weekdayOf`, and the ISO `yyyy-mm-dd` rendering used by
  `toISODate`/`specific-date` comparison is an injective function of the
  day index, so string equality of ISO dates is modelled by equality of
  day indices.
* Wall-clock instants (`Date.now()`) are milliseconds as `Nat`.
  JavaScript `now - last < 1500` on possibly-negative differences agrees
  with truncated `Nat` subtraction here, because a negative difference
  also satisfies `< 1500`.
* JavaScript objects keyed by task id (`timers`) are association lists
  (`{...prev, [id]: v}` replaces in place or appends a new key;
  `delete obj[id]` removes the key and keeps the order of the rest).
  The de-duplication cache `lastLogRef` is only ever read and written
  pointwise, so it is a function `String → Option (Nat × Nat)`.
* `startISO`/`endISO` are `toISOString` renderings of millisecond
  timestamps, an injective function of the timestamp; they are modelled
  by the timestamps themselves.
-/

namespace GoalsTracker

/-- The two task categories (`'goals' | 'waste'`). -/
inductive Tab
  | goals
  | waste
deriving DecidableEq

/-- `Item['schedule']['type']` from `App.tsx`.  The TypeScript union has ten
literal strings; persisted JSON may carry any other string, which the
evaluator's `default` branch handles, so the model closes the type with an
`unknownType` constructor carrying the raw string. -/
inductive ScheduleType
  | daily
  | weekdays
  | weekends
  | customDays
  | everyOtherDay
  | every3Days
  | weekly
  | biweekly
  | monthly
  | specificDate
  | unknownType (raw : String)
deriving DecidableEq

/-- `Item['schedule']` from `App.tsx`: tagged rule with optional fields.
`daysOfWeek` holds JS weekday numbers (0 = Sunday); `date` and
`anchorDate` are calendar dates (day indices, see module docstring). -/
structure Schedule where
  type : ScheduleType
  daysOfWeek : Option (List Int) := none
  date : Option Int := none
  anchorDate : Option Int := none
deriving DecidableEq

/-- `Item` from `App.tsx`.  `createdDate` is stored as a date string; the
model keeps its parsed date-only value, `none` standing for a string that
`new Date(...)` fails to parse (the `Number.isNaN` branch of
`getAnchorDate`). -/
structure Item where
  id : String
  text : String
  completed : Bool
  createdDate : Option Int
  elapsedSeconds : Option Nat := none
  link : Option String := none
  schedule : Option Schedule := none
deriving DecidableEq

/-- `LogEntry` from `App.tsx`.  `startMs`/`endMs` model the millisecond
timestamps rendered into `startISO`/`endISO`. -/
structure LogEntry where
  id : String
  itemId : String
  itemText : String
  tab : Tab
  startMs : Nat
  endMs : Nat
  durationSeconds : Nat
deriving DecidableEq

/-- `TimerState['mode']`. -/
inductive TimerMode
  | countdown
  | stopwatch
deriving DecidableEq

/-- `TimerState` from `App.tsx`. -/
structure TimerState where
  mode : TimerMode
  seconds : Nat
  remainingSeconds : Option Nat := none
  totalSeconds : Option Nat := none
  elapsedSeconds : Option Nat := none
  targetTimeMs : Option Nat := none
  isRunning : Bool
  startSeconds : Option Nat := none
  startRemaining : Option Nat := none
  itemText : String
  tab : Tab
deriving DecidableEq

/-- The `timers` map, a JS object keyed by task id, as an association
list in key-insertion order. -/
abbrev Timers := List (String × TimerState)

/-- Reading `timers[id]`. -/
def Timers.lookup (m : Timers) (key : String) : Option TimerState :=
  (List.find? (fun p => p.1 == key) m).map (fun p => p.2)

/-- `delete updated[id]` on a JS object: drop the key, keep the rest in
order. -/
def Timers.erase (m : Timers) (key : String) : Timers :=
  List.filter (fun p => !(p.1 == key)) m

/-- `{...prev, [id]: v}` on a JS object: replace the value in place when
the key exists, otherwise append the new key. -/
def Timers.set (m : Timers) (key : String) (v : TimerState) : Timers :=
  if List.any m (fun p => p.1 == key) then
    List.map (fun p => if p.1 == key then (key, v) else p) m
  else
    m ++ [(key, v)]

/-! ### Recurrence evaluator (`isItemScheduledForDate`, App.tsx 653-693) -/

/-- `date.getDay()` of a day index: day 0 (1970-01-01) was a Thursday
(weekday 4), and JS weekdays are always in `0..6`, hence `Int.emod`. -/
def weekdayOf (day : Int) : Int :=
  (day + 4) % 7

/-- Day-of-month of a day index, the value `date.getDate()` returns:
the standard civil-from-days conversion for the proleptic Gregorian
calendar. -/
def dayOfMonth (day : Int) : Int :=
  let z := day + 719468
  let era := z.fdiv 146097
  let doe := z - era * 146097
  let yoe := (doe - doe.fdiv 1460 + doe.fdiv 36524 - doe.fdiv 146096).fdiv 365
  let doy := doe - (365 * yoe + yoe.fdiv 4 - yoe.fdiv 100)
  let mp := (5 * doy + 2).fdiv 153
  doy - (153 * mp + 2).fdiv 5 + 1

/-- `getAnchorDate` (App.tsx 646-652): the schedule's `anchorDate` if
present, else the parsed `createdDate` if it parses, else today.
`nowDay` is the date-only value of `new Date()`. -/
def getAnchorDate (nowDay : Int) (item : Item) : Int :=
  match item.schedule.bind (fun s => s.anchorDate) with
  | some anchor => anchor
  | none =>
    match item.createdDate with
    | some parsed => parsed
    | none => nowDay

/-- `isItemScheduledForDate` (App.tsx 653-693).  `diffDays` is the exact
day difference because the model works on date-only day indices;
`Math.floor(x / 7)` is `Int.fdiv`, and the JS `%` (truncating remainder)
is `Int.tmod`. -/
def isItemScheduledForDate (nowDay : Int) (item : Item) (date : Int) : Bool :=
  match item.schedule with
  | none => true
  | some schedule =>
    let today := date
    let anchor := getAnchorDate nowDay item
    let diffDays := today - anchor
    let weekday := weekdayOf today
    match schedule.type with
    | .daily => true
    | .weekdays => decide (1 ≤ weekday ∧ weekday ≤ 5)
    | .weekends => decide (weekday = 0 ∨ weekday = 6)
    | .customDays =>
      match schedule.daysOfWeek with
      | some days => days.contains weekday
      | none => true
    | .everyOtherDay => decide (diffDays.tmod 2 = 0)
    | .every3Days => decide (diffDays.tmod 3 = 0)
    | .weekly =>
      let days := schedule.daysOfWeek.getD [weekdayOf anchor]
      let weeks := diffDays.fdiv 7
      decide (0 ≤ weeks) && days.contains weekday
    | .biweekly =>
      let days := schedule.daysOfWeek.getD [weekdayOf anchor]
      let weeks := diffDays.fdiv 7
      decide (0 ≤ weeks) && decide (weeks.tmod 2 = 0) && days.contains weekday
    | .monthly =>
      let targetDate := schedule.date.getD anchor
      decide (dayOfMonth today = dayOfMonth targetDate)
    | .specificDate =>
      match schedule.date with
      | some d0 => decide (d0 = today)
      | none => false
    | .unknownType _ => true

/-! ### Session log builder (App.tsx 346-390) -/

/-- `buildLogEntryFromFields` (App.tsx 370-382).  `endTime = Date.now()`
is passed in as `nowMs`; the entry id is the template literal
`${endTime}-${itemId}`. -/
def buildLogEntryFromFields (itemId itemText : String) (entryTab : Tab)
    (durationSeconds : Nat) (nowMs : Nat) : LogEntry :=
  let endTime := nowMs
  let startTime := endTime - durationSeconds * 1000
  { id := Nat.repr endTime ++ "-" ++ itemId
    itemId := itemId
    itemText := itemText
    tab := entryTab
    startMs := startTime
    endMs := endTime
    durationSeconds := durationSeconds }

/-- `buildLogEntry` (App.tsx 356-368): same construction from an `Item`. -/
def buildLogEntry (item : Item) (durationSeconds : Nat) (entryTab : Tab)
    (nowMs : Nat) : LogEntry :=
  let endTime := nowMs
  let startTime := endTime - durationSeconds * 1000
  { id := Nat.repr endTime ++ "-" ++ item.id
    itemId := item.id
    itemText := item.text
    tab := entryTab
    startMs := startTime
    endMs := endTime
    durationSeconds := durationSeconds }

/-- `getTimerDuration` (App.tsx 384-390): `null` for a missing timer,
else elapsed seconds (countdown) or the stopwatch count. -/
def getTimerDuration (timer : Option TimerState) : Option Nat :=
  match timer with
  | none => none
  | some t =>
    match t.mode with
    | .countdown => some (t.elapsedSeconds.getD 0)
    | .stopwatch => some t.seconds

/-- The mutable pieces of component state the engine operations touch:
the two per-category item lists, the timers map, the log, the
de-duplication cache `lastLogRef` and the tick guard `lastTickRef`. -/
structure AppState where
  itemsGoals : List Item
  itemsWaste : List Item
  timers : Timers
  logs : List LogEntry
  lastLog : String → Option (Nat × Nat)
  lastTick : Nat

/-- `items[tab]`. -/
def AppState.items (s : AppState) (tab : Tab) : List Item :=
  match tab with
  | .goals => s.itemsGoals
  | .waste => s.itemsWaste

/-- Replace `items[tab]`. -/
def AppState.setItems (s : AppState) (tab : Tab) (l : List Item) : AppState :=
  match tab with
  | .goals => { s with itemsGoals := l }
  | .waste => { s with itemsWaste := l }

/-- `appendLogEntry` (App.tsx 346-354): drop the entry silently when the
last appended entry for the same `itemId` is less than 1500 ms old and
has the same duration; otherwise record it in `lastLogRef` and append. -/
def appendLogEntry (s : AppState) (entry : LogEntry) (nowMs : Nat) : AppState :=
  if (match s.lastLog entry.itemId with
      | some last => decide (nowMs - last.1 < 1500) && (last.2 == entry.durationSeconds)
      | none => false) then s
  else
    { s with
      lastLog := fun k => if k == entry.itemId then some (nowMs, entry.durationSeconds) else s.lastLog k
      logs := s.logs ++ [entry] }

/-! ### Timer engine -/

/-- One timer's step inside the tick handler (App.tsx 201-221): skip
paused timers; a countdown loses one remaining second (`max(0, r - 1)`
is truncated subtraction) and gains one elapsed second, and on reaching
zero stops and emits a completion entry when the elapsed duration is
positive; a stopwatch gains one second. -/
def tickTimer (nowMs : Nat) (id : String) (t : TimerState) :
    TimerState × List LogEntry :=
  if !t.isRunning then (t, [])
  else
    match t.mode with
    | .countdown =>
      let remaining := t.remainingSeconds.getD 0 - 1
      let elapsed := t.elapsedSeconds.getD 0 + 1
      if remaining = 0 then
        let duration := elapsed
        let emitted :=
          if duration > 0 then
            [buildLogEntryFromFields id t.itemText t.tab duration nowMs]
          else []
        ({ t with
            remainingSeconds := some remaining
            elapsedSeconds := some elapsed
            isRunning := false
            startRemaining := none }, emitted)
      else
        ({ t with
            remainingSeconds := some remaining
            elapsedSeconds := some elapsed }, [])
    | .stopwatch => ({ t with seconds := t.seconds + 1 }, [])

/-- The interval callback (App.tsx 188-234): compute the whole second
`Math.floor(Date.now() / 1000)`, return unchanged when it equals the
last observed second, else record it, step every timer and append the
emitted completion entries to the log. -/
def tick (s : AppState) (nowMs : Nat) : AppState :=
  let nowSec := nowMs / 1000
  if nowSec = s.lastTick then s
  else
    let stepped := s.timers.map (fun p => (p.1, tickTimer nowMs p.1 p.2))
    let timers' : Timers := stepped.map (fun p => (p.1, p.2.1))
    let logsToAdd := (stepped.map (fun p => p.2.2)).flatten
    { s with
      lastTick := nowSec
      timers := timers'
      logs := s.logs ++ logsToAdd }

/-- `pauseResumeTimer` (App.tsx 456-484).  Pausing clears the start
snapshots; resuming a countdown pinned to an absolute `targetTimeMs`
recomputes the remaining seconds as `max(0, ceil((target - now)/1000))`
and only restarts when that is positive. -/
def pauseResumeTimer (s : AppState) (id : String) (nowMs : Nat) : AppState :=
  match s.timers.lookup id with
  | none => s
  | some current =>
    if current.isRunning then
      { s with
        timers := s.timers.set id
          { current with isRunning := false, startSeconds := none, startRemaining := none } }
    else
      let fromTarget : Option Nat :=
        match current.mode, current.targetTimeMs with
        | .countdown, some target => some (max 0 ((target - nowMs + 999) / 1000))
        | _, _ => none
      { s with
        timers := s.timers.set id
          { current with
            isRunning :=
              match fromTarget with
              | some r => decide (r > 0)
              | none => true
            startSeconds :=
              match current.mode with
              | .stopwatch => some current.seconds
              | .countdown => none
            startRemaining :=
              match current.mode with
              | .countdown => current.remainingSeconds
              | .stopwatch => none
            remainingSeconds :=
              match fromTarget with
              | some r => some r
              | none => current.remainingSeconds } }

/-- `clampMinutes` (App.tsx 512): clamp the duration input to
`[1, 1440]` minutes. -/
def clampMinutes (value : Nat) : Nat :=
  min (24 * 60) (max 1 value)

/-- The `duration` branch of `applyTimer` (App.tsx 514-587): start a
countdown of `clampMinutes(minutes) * 60` seconds for an uncompleted
item. -/
def applyTimerDuration (item : Item) (tab : Tab) (minutes : Nat)
    (timers : Timers) : Timers :=
  if item.completed then timers
  else
    let durationSeconds := clampMinutes minutes * 60
    timers.set item.id
      { mode := .countdown
        seconds := 0
        remainingSeconds := some durationSeconds
        totalSeconds := some durationSeconds
        elapsedSeconds := some 0
        isRunning := true
        startRemaining := some durationSeconds
        itemText := item.text
        tab := tab }

/-- The `target` branch of `applyTimer` (App.tsx 522-554): the popup
resolves the picked wall-clock time to an absolute `targetMs` strictly
in the future (rolling to the next day when already passed); the
duration is `max(60, round((target - now)/1000))` and the timer keeps
the absolute deadline in `targetTimeMs`. -/
def applyTimerTarget (item : Item) (tab : Tab) (targetMs nowMs : Nat)
    (timers : Timers) : Timers :=
  if item.completed then timers
  else
    let durationSeconds := max 60 ((targetMs - nowMs + 500) / 1000)
    timers.set item.id
      { mode := .countdown
        seconds := 0
        remainingSeconds := some durationSeconds
        totalSeconds := some durationSeconds
        elapsedSeconds := some 0
        targetTimeMs := some targetMs
        isRunning := true
        startRemaining := some durationSeconds
        itemText := item.text
        tab := tab }

/-- The `stopwatch` branch of `applyTimer` (App.tsx 555-569). -/
def applyTimerStopwatch (item : Item) (tab : Tab) (timers : Timers) : Timers :=
  if item.completed then timers
  else
    timers.set item.id
      { mode := .stopwatch
        seconds := 0
        isRunning := true
        startSeconds := some 0
        itemText := item.text
        tab := tab }

/-! ### Task completion and ordering (App.tsx 392-454, 621-642) -/

/-- The timer-seconds snapshot taken by `completeTask` (App.tsx 418-421):
`timer?.mode === 'countdown' ? timer?.elapsedSeconds : timer?.seconds`. -/
def timerSnapshotSeconds (timer : Option TimerState) : Option Nat :=
  match timer with
  | none => none
  | some t =>
    match t.mode with
    | .countdown => t.elapsedSeconds
    | .stopwatch => some t.seconds

/-- The per-item update applied by `completeTask` (App.tsx 422-430):
toggle `completed` and snapshot the timer seconds on the matching item. -/
def toggleItemUpdate (timerSeconds : Option Nat) (id : String) (it : Item) : Item :=
  if it.id == id then
    { it with
      completed := !it.completed
      elapsedSeconds :=
        match timerSeconds with
        | some v => some v
        | none => it.elapsedSeconds }
  else it

/-- The list recomputation inside `completeTask` (App.tsx 422-444):
update the toggled item, then rebuild the list as incomplete items
followed by completed items, with the toggled item pushed to the end of
its segment. -/
def completeTaskList (items : List Item) (timerSeconds : Option Nat)
    (id : String) : List Item :=
  let updatedList := items.map (toggleItemUpdate timerSeconds id)
  let toggledItem := updatedList.find? (fun e => e.id == id)
  let rest := updatedList.filter (fun e => !(e.id == id))
  let incomplete := rest.filter (fun e => !e.completed)
  let completedL := rest.filter (fun e => e.completed)
  match toggledItem with
  | some t =>
    if t.completed then incomplete ++ (completedL ++ [t])
    else (incomplete ++ [t]) ++ completedL
  | none => incomplete ++ completedL

/-- `completeTask` (App.tsx 404-454).  Logs a completion entry when the
item is being completed (timer duration, or zero when untimed), toggles
the `completed` flag, snapshots the timer's seconds into the item,
repartitions the list with the toggled item at the end of its segment,
and clears the item's timer. -/
def completeTask (tab : Tab) (s : AppState) (id : String) (nowMs : Nat) : AppState :=
  let timer := s.timers.lookup id
  let item := (s.items tab).find? (fun i => i.id == id)
  let entryTab := (timer.map (fun t => t.tab)).getD tab
  let willComplete :=
    match item with
    | some i => !i.completed
    | none => false
  let s1 :=
    match item with
    | some i =>
      if willComplete then
        let duration := getTimerDuration timer
        match duration with
        | some d =>
          if d > 0 then appendLogEntry s (buildLogEntry i d entryTab nowMs) nowMs
          else appendLogEntry s (buildLogEntry i 0 entryTab nowMs) nowMs
        | none => appendLogEntry s (buildLogEntry i 0 entryTab nowMs) nowMs
      else s
    | none => s
  let newList := completeTaskList (s.items tab) (timerSnapshotSeconds timer) id
  let s2 := s1.setItems tab newList
  { s2 with timers := s2.timers.erase id }

/-- `toggleComplete` (App.tsx 392-402): no-op when the id is not in the
current list; otherwise both the completed and the uncompleted branch
call `completeTask`. -/
def toggleComplete (tab : Tab) (s : AppState) (id : String) (nowMs : Nat) : AppState :=
  match (s.items tab).find? (fun i => i.id == id) with
  | none => s
  | some item =>
    if item.completed then completeTask tab s id nowMs
    else completeTask tab s id nowMs

/-- `reorderItems` (App.tsx 621-642): move an incomplete `sourceId` in
front of `targetId` among the incomplete items, or to the end of the
incomplete segment when the target is missing or completed; no-op when
the source is missing or completed. -/
def reorderItems (list : List Item) (sourceId targetId : String) : List Item :=
  if sourceId == targetId then list
  else
    match list.find? (fun i => i.id == sourceId) with
    | none => list
    | some source =>
      if source.completed then list
      else
        let target := list.find? (fun i => i.id == targetId)
        let incomplete := list.filter (fun i => !i.completed && !(i.id == sourceId))
        let completedL := list.filter (fun i => i.completed)
        let targetBad :=
          match target with
          | none => true
          | some t => t.completed
        if targetBad then (incomplete ++ [source]) ++ completedL
        else
          match incomplete.findIdx? (fun i => i.id == targetId) with
          | none => list
          | some toIndex => (incomplete.insertIdx toIndex source) ++ completedL

/-! ### Load-time daily reset (`loadStoredState`, App.tsx 47-99) -/

/-- The parsed shape of `localStorage['goalsTrackerData']`.
`taskHistory` is `some` exactly when the stored value has array-valued
`goals` and `waste` fields. -/
structure StoredData where
  itemsGoals : List Item
  itemsWaste : List Item
  logs : List LogEntry
  taskHistory : Option (List String × List String)

/-- What `loadStoredState` returns, together with the
`localStorage['lastResetDate']` value it leaves behind. -/
structure LoadedState where
  itemsGoals : List Item
  itemsWaste : List Item
  logs : List LogEntry
  historyGoals : List String
  historyWaste : List String
  lastResetDate : String

/-- `[...new Set(l)]`: deduplicate keeping first occurrences in order. -/
def dedupFirst : List String → List String
  | [] => []
  | x :: xs => x :: (dedupFirst xs).filter (fun y => !(y == x))

/-- `loadStoredState` (App.tsx 47-99).  `stored = none` models both a
missing and an unparseable `goalsTrackerData` value (the `catch` arm);
`lastReset` is the stored `lastResetDate`.  When the stored date is not
today, every item's `completed` flag is cleared and the date is
advanced; the task history falls back to one derived from items and
logs when the stored one is absent or malformed. -/
def loadStoredState (stored : Option StoredData) (lastReset : Option String)
    (today : String) : LoadedState :=
  match stored with
  | none =>
    { itemsGoals := [], itemsWaste := [], logs := []
      historyGoals := [], historyWaste := [], lastResetDate := today }
  | some data =>
    let derivedHistory :=
      (dedupFirst (data.itemsGoals.map (fun i => i.text) ++
        ((data.logs.filter (fun e => e.tab == Tab.goals)).map (fun e => e.itemText))),
       dedupFirst (data.itemsWaste.map (fun i => i.text) ++
        ((data.logs.filter (fun e => e.tab == Tab.waste)).map (fun e => e.itemText))))
    let taskHistory := data.taskHistory.getD derivedHistory
    if lastReset ≠ some today then
      { itemsGoals := data.itemsGoals.map (fun i => { i with completed := false })
        itemsWaste := data.itemsWaste.map (fun i => { i with completed := false })
        logs := data.logs
        historyGoals := taskHistory.1
        historyWaste := taskHistory.2
        lastResetDate := today }
    else
      { itemsGoals := data.itemsGoals
        itemsWaste := data.itemsWaste
        logs := data.logs
        historyGoals := taskHistory.1
        historyWaste := taskHistory.2
        lastResetDate := today }

/-! ### Concrete scenario states used by the scenario theorems -/

/-- Drive the interval callback once per element of `times`, each element
being the `Date.now()` value observed by that invocation. -/
def runTicks (s : AppState) (times : List Nat) : AppState :=
  times.foldl tick s

/-- A task used by the 300-second countdown scenario. -/
def c1Item : Item :=
  { id := "1", text := "focus", completed := false, createdDate := some 0 }

/-- Initial state of the 300-second countdown scenario: one goal task
with a freshly started 5-minute duration countdown, clock at second
1000. -/
def c1Start : AppState :=
  { itemsGoals := [c1Item]
    itemsWaste := []
    timers := applyTimerDuration c1Item Tab.goals 5 []
    logs := []
    lastLog := fun _ => none
    lastTick := 1000 }

/-- The scenario state after 300 tick invocations, one in each of the
wall-clock seconds 1001..1300. -/
def c1Final : AppState :=
  runTicks c1Start ((List.range 300).map (fun i => (1001 + i) * 1000))

/-- A task used by the paused-countdown scenario. -/
def c5Item : Item :=
  { id := "5", text := "write", completed := false, createdDate := some 0 }

/-- Start of the paused-countdown scenario: a target-time countdown
started at wall-clock millisecond 1000000000 with deadline 130 s later. -/
def c5Start : AppState :=
  { itemsGoals := [c5Item]
    itemsWaste := []
    timers := applyTimerTarget c5Item Tab.goals (1000000000 + 130000) 1000000000 []
    logs := []
    lastLog := fun _ => none
    lastTick := 1000000000 / 1000 }

/-- After ten running ticks (seconds 1..10 after start): 120 s remain. -/
def c5Running : AppState :=
  runTicks c5Start ((List.range 10).map (fun i => 1000000000 + (i + 1) * 1000))

/-- Paused at millisecond offset 10400. -/
def c5PausedState : AppState :=
  pauseResumeTimer c5Running "5" (1000000000 + 10400)

/-- Ten further tick invocations (seconds 11..20) while paused. -/
def c5PausedTicked : AppState :=
  runTicks c5PausedState ((List.range 10).map (fun i => 1000000000 + (i + 11) * 1000))

/-- Resumed at millisecond offset 20400, ten seconds after pausing. -/
def c5Resumed : AppState :=
  pauseResumeTimer c5PausedTicked "5" (1000000000 + 20400)

/-- A task used by the duplicate-log-id scenario. -/
def c8Item : Item :=
  { id := "1", text := "read", completed := false, createdDate := some 0 }

/-- Start of the duplicate-log-id scenario: a 1-minute duration
countdown on one goal task, clock at second 1000. -/
def c8Start : AppState :=
  { itemsGoals := [c8Item]
    itemsWaste := []
    timers := applyTimerDuration c8Item Tab.goals 1 []
    logs := []
    lastLog := fun _ => none
    lastTick := 1000 }

/-- After 60 ticks (seconds 1001..1060) the countdown expires during the
tick at millisecond 1060000 and emits its completion entry. -/
def c8Expired : AppState :=
  runTicks c8Start ((List.range 60).map (fun i => (1001 + i) * 1000))

/-- The user completes the task in the same millisecond in which the
countdown expired. -/
def c8Final : AppState :=
  completeTask Tab.goals c8Expired "1" 1060000

/-- A small concrete task used by several witnesses. -/
def sampleItem : Item :=
  { id := "9", text := "demo", completed := false, createdDate := some 0 }

/-- A running stopwatch timer used by several witnesses. -/
def sampleTimer : TimerState :=
  { mode := TimerMode.stopwatch, seconds := 0, isRunning := true, itemText := "demo", tab := Tab.goals }

/-- A small concrete state used by several witnesses: one goal task with
a running stopwatch timer. -/
def sampleState : AppState :=
  { itemsGoals := [sampleItem]
    itemsWaste := []
    timers := [("9", sampleTimer)]
    logs := []
    lastLog := fun _ => none
    lastTick := 0 }

/-- A paused duration-based countdown (no absolute deadline) with 120
seconds remaining, used by the C5 witness. -/
def pausedCountdownSample : TimerState :=
  { mode := TimerMode.countdown, seconds := 0, remainingSeconds := some 120,
    totalSeconds := some 300, elapsedSeconds := some 180, isRunning := false,
    itemText := "demo", tab := Tab.goals }

/-- A state holding the paused duration-based countdown. -/
def pausedSampleState : AppState :=
  { itemsGoals := [sampleItem]
    itemsWaste := []
    timers := [("9", pausedCountdownSample)]
    logs := []
    lastLog := fun _ => none
    lastTick := 0 }

/-- A stored snapshot used by the C7 witness: one completed goal task,
one waste task, a log entry and a stored task history. -/
def storedSample : StoredData :=
  { itemsGoals := [{ id := "1", text := "plan", completed := true, createdDate := some 0 }]
    itemsWaste := [{ id := "2", text := "scroll", completed := true, createdDate := some 0 }]
    logs := [{ id := "5000-1", itemId := "1", itemText := "plan", tab := Tab.goals,
               startMs := 4000, endMs := 5000, durationSeconds := 1 }]
    taskHistory := some (["plan"], ["scroll"]) }

/-! ## Helper lemmas -/

theorem toDigitsCore_eq_digits (fuel : Nat) :
    ∀ (n : Nat) (acc : List Char), 0 < n → n ≤ fuel →
      Nat.toDigitsCore 10 fuel n acc =
        ((Nat.digits 10 n).map Nat.digitChar).reverse ++ acc := by
  induction fuel with
  | zero => intro n acc h1 h2; omega
  | succ fuel ih =>
    intro n acc h1 h2
    rw [Nat.toDigitsCore]
    by_cases hdiv : n / 10 = 0
    · simp only [hdiv, if_pos rfl]
      rw [Nat.digits_def' (by norm_num : (1:ℕ) < 10) h1, hdiv]
      simp
    · simp only [if_neg hdiv]
      have hpos : 0 < n / 10 := Nat.pos_of_ne_zero hdiv
      have hlt : n / 10 < n := Nat.div_lt_self h1 (by norm_num)
      rw [ih (n / 10) _ hpos (by omega)]
      rw [Nat.digits_def' (by norm_num : (1:ℕ) < 10) h1]
      simp

theorem repr_eq_digits (n : Nat) (h : 0 < n) :
    Nat.repr n = (((Nat.digits 10 n).map Nat.digitChar).reverse).asString := by
  show (Nat.toDigits 10 n).asString = _
  rw [Nat.toDigits, toDigitsCore_eq_digits (n + 1) n [] h (by omega), List.append_nil]

theorem digitChar_inj_lt (a b : Nat) (ha : a < 10) (hb : b < 10)
    (h : Nat.digitChar a = Nat.digitChar b) : a = b := by
  interval_cases a <;> interval_cases b <;> revert h <;> decide

theorem map_digitChar_inj :
    ∀ (l1 l2 : List Nat), (∀ x ∈ l1, x < 10) → (∀ x ∈ l2, x < 10) →
      l1.map Nat.digitChar = l2.map Nat.digitChar → l1 = l2
  | [], [], _, _, _ => rfl
  | [], _ :: _, _, _, h => by simp at h
  | _ :: _, [], _, _, h => by simp at h
  | a :: l1, b :: l2, h1, h2, h => by
    simp only [List.map_cons, List.cons.injEq] at h
    have hab := digitChar_inj_lt a b (h1 a (by simp)) (h2 b (by simp)) h.1
    have := map_digitChar_inj l1 l2 (fun x hx => h1 x (by simp [hx]))
      (fun x hx => h2 x (by simp [hx])) h.2
    simp [hab, this]

theorem asString_inj (l1 l2 : List Char) (h : l1.asString = l2.asString) :
    l1 = l2 := by
  simpa [List.asString] using congrArg String.data h

theorem digits_map_eq_zero_char (n : Nat) (hn : 0 < n)
    (h : (Nat.digits 10 n).map Nat.digitChar = ['0']) : False := by
  have hd : Nat.digits 10 n = [0] := by
    cases hds : Nat.digits 10 n with
    | nil => simp [hds] at h
    | cons d rest =>
      rw [hds] at h
      simp only [List.map_cons, List.cons.injEq] at h
      have hrest : rest = [] := by
        cases rest with
        | nil => rfl
        | cons _ _ => simp at h
      have hdlt : d < 10 :=
        Nat.digits_lt_base (by norm_num) (by rw [hds]; simp)
      have : d = 0 := digitChar_inj_lt d 0 hdlt (by norm_num) h.1
      simp [this, hrest]
  have := Nat.ofDigits_digits 10 n
  rw [hd] at this
  simp [Nat.ofDigits] at this
  omega

theorem nat_repr_injective (m n : Nat) (h : Nat.repr m = Nat.repr n) : m = n := by
  rcases Nat.eq_zero_or_pos m with hm | hm <;> rcases Nat.eq_zero_or_pos n with hn | hn
  · omega
  · subst hm
    rw [repr_eq_digits n hn] at h
    have := asString_inj _ _ h
    have : (Nat.digits 10 n).map Nat.digitChar = ['0'] := by
      have hr := congrArg List.reverse this
      simpa using hr.symm
    exact absurd this (fun hc => digits_map_eq_zero_char n hn hc)
  · subst hn
    rw [repr_eq_digits m hm] at h
    have := asString_inj _ _ h
    have : (Nat.digits 10 m).map Nat.digitChar = ['0'] := by
      have hr := congrArg List.reverse this
      simpa using hr
    exact absurd this (fun hc => digits_map_eq_zero_char m hm hc)
  · rw [repr_eq_digits m hm, repr_eq_digits n hn] at h
    have hlists := asString_inj _ _ h
    have hmaps : (Nat.digits 10 m).map Nat.digitChar =
        (Nat.digits 10 n).map Nat.digitChar := by
      have := congrArg List.reverse hlists
      simpa using this
    have hdig := map_digitChar_inj _ _
      (fun x hx => Nat.digits_lt_base (by norm_num) hx)
      (fun x hx => Nat.digits_lt_base (by norm_num) hx) hmaps
    have := congrArg (Nat.ofDigits 10) hdig
    rwa [Nat.ofDigits_digits, Nat.ofDigits_digits] at this

theorem lookup_cons (p : String × TimerState) (rest : Timers) (k : String) :
    Timers.lookup (p :: rest) k =
      if p.1 == k then some p.2 else Timers.lookup rest k := by
  by_cases hp : (p.1 == k) = true
  · simp [Timers.lookup, List.find?_cons_of_pos _ hp, hp]
  · simp [Timers.lookup, List.find?_cons_of_neg _ hp, hp]

theorem lookup_map_step (m : Timers) (f : String → TimerState → TimerState)
    (k : String) :
    Timers.lookup (m.map (fun p => (p.1, f p.1 p.2))) k =
      (Timers.lookup m k).map (f k) := by
  induction m with
  | nil => rfl
  | cons p rest ih =>
    rw [List.map_cons, lookup_cons, lookup_cons]
    by_cases hp : (p.1 == k) = true
    · have hpk : p.1 = k := by simpa using hp
      simp [hp, hpk]
    · simp only [hp, if_neg, Bool.false_eq_true, not_false_iff, if_neg]
      exact ih

theorem set_cons_miss (p : String × TimerState) (rest : Timers) (k : String)
    (v : TimerState) (hp : (p.1 == k) = false) :
    Timers.set (p :: rest) k v = p :: Timers.set rest k v := by
  have hne : ¬p.1 = k := by simpa using hp
  by_cases hany : (rest.any fun q => q.1 == k) = true <;>
    simp [Timers.set, List.any_cons, hp, hany, hne]

theorem lookup_set_self (m : Timers) (k : String) (v : TimerState) :
    Timers.lookup (m.set k v) k = some v := by
  induction m with
  | nil => simp [Timers.set, lookup_cons]
  | cons p rest ih =>
    by_cases hp : (p.1 == k) = true
    · have hpk : p.1 = k := by simpa using hp
      simp [Timers.set, List.any_cons, hp, lookup_cons, hpk]
    · have hp' : (p.1 == k) = false := by simpa using hp
      rw [set_cons_miss p rest k v hp', lookup_cons, if_neg hp, ih]

theorem lookup_erase_self (m : Timers) (k : String) :
    Timers.lookup (m.erase k) k = none := by
  induction m with
  | nil => rfl
  | cons p rest ih =>
    by_cases hp : (p.1 == k) = true
    · simpa [Timers.erase, List.filter_cons, hp] using ih
    · have hp' : (p.1 == k) = false := by simpa using hp
      simp only [Timers.erase, List.filter_cons, hp', Bool.not_false, if_true] at ih ⊢
      rw [lookup_cons]
      simp only [hp', Bool.false_eq_true, if_neg, not_false_iff]
      exact ih

theorem lookup_erase_ne (m : Timers) (k k' : String) (h : k' ≠ k) :
    Timers.lookup (m.erase k) k' = Timers.lookup m k' := by
  induction m with
  | nil => rfl
  | cons p rest ih =>
    by_cases hp : (p.1 == k) = true
    · have hpk : p.1 = k := by simpa using hp
      have hpk' : (p.1 == k') = false := by
        simp only [beq_eq_false_iff_ne, ne_eq, hpk]
        exact fun hc => h hc.symm
      have hpkn : ¬((p.1 == k') = true) := by simp [hpk']
      simp only [Timers.erase, List.filter_cons, hp, Bool.not_true, if_false] at ih ⊢
      rw [lookup_cons, if_neg hpkn]
      exact ih
    · have hp' : (p.1 == k) = false := by simpa using hp
      simp only [Timers.erase, List.filter_cons, hp', Bool.not_false, if_true] at ih ⊢
      rw [lookup_cons, lookup_cons]
      by_cases hq : (p.1 == k') = true
      · simp [hq]
      · have hq' : (p.1 == k') = false := by simpa using hq
        simp only [hq', Bool.false_eq_true, if_neg, not_false_iff]
        exact ih

theorem appendLogEntry_timers (s : AppState) (e : LogEntry) (n : Nat) :
    (appendLogEntry s e n).timers = s.timers := by
  unfold appendLogEntry
  split <;> rfl

theorem appendLogEntry_items (s : AppState) (e : LogEntry) (n : Nat) (tab : Tab) :
    (appendLogEntry s e n).items tab = s.items tab := by
  cases tab <;> (unfold appendLogEntry; split <;> rfl)

theorem setItems_items_self (s : AppState) (tab : Tab) (l : List Item) :
    (s.setItems tab l).items tab = l := by
  cases tab <;> rfl

theorem setItems_timers (s : AppState) (tab : Tab) (l : List Item) :
    (s.setItems tab l).timers = s.timers := by
  cases tab <;> rfl

/-! ## Claim theorems -/

/-- C6: for every task and every date, if the task's schedule type is
`daily` or the task has no schedule at all, `isDue(task, date)` returns
true. -/
theorem c6_daily_or_absent_always_due (nowDay date : Int) (item : Item)
    (h : item.schedule = none ∨
      ∃ s, item.schedule = some s ∧ s.type = ScheduleType.daily) :
    isItemScheduledForDate nowDay item date = true := by
  rcases h with h | ⟨s, hs, ht⟩
  · simp [isItemScheduledForDate, h]
  · simp [isItemScheduledForDate, hs, ht]

/-- Witness for C6: a schedule-less task and a `daily` task are both due
on day 5. -/
theorem c6_daily_or_absent_always_due_witness :
    isItemScheduledForDate 0
        { id := "1", text := "walk", completed := false, createdDate := some 0 }
        5 = true ∧
    isItemScheduledForDate 0
        { id := "2", text := "run", completed := false, createdDate := some 0,
          schedule := some { type := ScheduleType.daily, anchorDate := some 0 } }
        5 = true :=
  ⟨c6_daily_or_absent_always_due 0 5 _ (Or.inl rfl),
   c6_daily_or_absent_always_due 0 5 _ (Or.inr ⟨_, rfl, rfl⟩)⟩

/-- C2 counterexample: a `specific-date` rule whose required `date` field
is missing makes `isDue` return `false` (the task is hidden), not `true`,
so the claim that every rule with missing required fields fails open is
false at this input. -/
theorem c2_specific_date_missing_counterexample :
    isItemScheduledForDate 0
        { id := "7", text := "tax", completed := false, createdDate := some 0,
          schedule := some { type := ScheduleType.specificDate, anchorDate := some 0 } }
        0 = false := by
  rfl

/-- C2 amended: rules of unknown type and `custom-days` rules with no
`daysOfWeek` set fail open (due on every date), but a `specific-date`
rule with no configured date fails closed — `isDue` returns `false` for
every date. -/
theorem c2_fail_open_amended (nowDay date : Int) (item : Item) (sched : Schedule)
    (h : item.schedule = some sched) :
    (((∃ raw, sched.type = ScheduleType.unknownType raw) ∨
        (sched.type = ScheduleType.customDays ∧ sched.daysOfWeek = none)) →
      isItemScheduledForDate nowDay item date = true) ∧
    ((sched.type = ScheduleType.specificDate ∧ sched.date = none) →
      isItemScheduledForDate nowDay item date = false) := by
  constructor
  · intro hopen
    rcases hopen with ⟨raw, ht⟩ | ⟨ht, hd⟩
    · simp [isItemScheduledForDate, h, ht]
    · simp [isItemScheduledForDate, h, ht, hd]
  · rintro ⟨ht, hd⟩
    simp [isItemScheduledForDate, h, ht, hd]

/-- Witness for C2 amended: an unknown rule type and a `custom-days` rule
without a day set are due on day 3; a `specific-date` rule without a date
is not. -/
theorem c2_fail_open_amended_witness :
    isItemScheduledForDate 0
        { id := "1", text := "a", completed := false, createdDate := some 0,
          schedule := some { type := ScheduleType.unknownType "yearly" } }
        3 = true ∧
    isItemScheduledForDate 0
        { id := "2", text := "b", completed := false, createdDate := some 0,
          schedule := some { type := ScheduleType.customDays } }
        3 = true ∧
    isItemScheduledForDate 0
        { id := "3", text := "c", completed := false, createdDate := some 0,
          schedule := some { type := ScheduleType.specificDate } }
        3 = false :=
  ⟨(c2_fail_open_amended 0 3 _ _ rfl).1 (Or.inl ⟨"yearly", rfl⟩),
   (c2_fail_open_amended 0 3 _ _ rfl).1 (Or.inr ⟨rfl, rfl⟩),
   (c2_fail_open_amended 0 3 _ _ rfl).2 ⟨rfl, rfl⟩⟩

/-- C4: the tick handler is idempotent within a wall-clock second: a
second invocation whose observed whole second equals the first one's
leaves the state exactly as after the first invocation, so at most one
decrement happens per distinct second value. -/
theorem c4_tick_idempotent_same_second (s : AppState) (n1 n2 : Nat)
    (h : n1 / 1000 = n2 / 1000) :
    tick (tick s n1) n2 = tick s n1 := by
  by_cases h1 : n1 / 1000 = s.lastTick
  · have h2 : n2 / 1000 = s.lastTick := by omega
    simp [tick, h1, h2]
  · set X := tick s n1 with hX
    have hL : X.lastTick = n1 / 1000 := by
      rw [hX]; simp [tick, h1]
    have hguard : n2 / 1000 = X.lastTick := by omega
    show tick X n2 = X
    unfold tick
    simp [hguard]

/-- Witness for C4: two tick invocations at 1500 ms and 1700 ms (both in
second 1) collapse to one. -/
theorem c4_tick_idempotent_same_second_witness :
    tick (tick sampleState 1500) 1700 = tick sampleState 1500 :=
  c4_tick_idempotent_same_second sampleState 1500 1700 (by decide)

/-- C3: two build-and-append requests for the same task id with the same
duration within 1.5 s: the first appends exactly one entry, the second is
dropped silently, leaving the whole state unchanged. -/
theorem c3_dedup_drops_second (s0 : AppState) (id text1 text2 : String)
    (tb1 tb2 : Tab) (dur t1 t2 : Nat)
    (h0 : s0.lastLog id = none) (hgap : t2 - t1 < 1500) :
    appendLogEntry (appendLogEntry s0 (buildLogEntryFromFields id text1 tb1 dur t1) t1)
        (buildLogEntryFromFields id text2 tb2 dur t2) t2 =
      appendLogEntry s0 (buildLogEntryFromFields id text1 tb1 dur t1) t1 ∧
    (appendLogEntry s0 (buildLogEntryFromFields id text1 tb1 dur t1) t1).logs =
      s0.logs ++ [buildLogEntryFromFields id text1 tb1 dur t1] := by
  have hs1 : appendLogEntry s0 (buildLogEntryFromFields id text1 tb1 dur t1) t1 =
      { s0 with
        lastLog := fun k =>
          if k == id then some (t1, dur) else s0.lastLog k
        logs := s0.logs ++ [buildLogEntryFromFields id text1 tb1 dur t1] } := by
    unfold appendLogEntry
    rw [show (buildLogEntryFromFields id text1 tb1 dur t1).itemId = id from rfl, h0]
    simp [buildLogEntryFromFields]
  constructor
  · rw [hs1]
    unfold appendLogEntry
    rw [show (buildLogEntryFromFields id text2 tb2 dur t2).itemId = id from rfl]
    simp [hgap, buildLogEntryFromFields]
  · rw [hs1]

/-- Witness for C3: appending for task "9" with duration 60 at 5000 ms
and again at 6000 ms keeps exactly the first entry. -/
theorem c3_dedup_drops_second_witness :
    appendLogEntry
        (appendLogEntry sampleState (buildLogEntryFromFields "9" "demo" Tab.goals 60 5000) 5000)
        (buildLogEntryFromFields "9" "demo" Tab.goals 60 6000) 6000 =
      appendLogEntry sampleState (buildLogEntryFromFields "9" "demo" Tab.goals 60 5000) 5000 ∧
    (appendLogEntry sampleState (buildLogEntryFromFields "9" "demo" Tab.goals 60 5000) 5000).logs =
      sampleState.logs ++ [buildLogEntryFromFields "9" "demo" Tab.goals 60 5000] :=
  c3_dedup_drops_second sampleState "9" "demo" "demo" Tab.goals Tab.goals 60 5000 6000
    rfl (by decide)

set_option maxRecDepth 10000 in
/-- C1: starting a 300-second countdown and invoking the tick handler in
300 distinct wall-clock seconds leaves the timer at
`remainingSeconds = 0`, `isRunning = false`, and appends exactly one log
entry for the task, with `durationSeconds = 300`. -/
theorem c1_countdown_300_completes_once :
    ((c1Final.timers.lookup "1").map
        (fun t => (t.remainingSeconds, t.isRunning)) = some (some 0, false)) ∧
    c1Final.logs.map (fun e => (e.itemId, e.durationSeconds)) = [("1", 300)] := by
  decide

/-- A paused timer is untouched by one timer step. -/
theorem tickTimer_paused (nowMs : Nat) (id : String) (t : TimerState)
    (h : t.isRunning = false) : tickTimer nowMs id t = (t, []) := by
  simp [tickTimer, h]

/-- A paused timer is untouched by one tick invocation. -/
theorem tick_preserves_paused (s : AppState) (nowMs : Nat) (id : String)
    (t : TimerState) (hl : s.timers.lookup id = some t)
    (h : t.isRunning = false) :
    (tick s nowMs).timers.lookup id = some t := by
  unfold tick
  by_cases hg : nowMs / 1000 = s.lastTick
  · simp [hg, hl]
  · simp only [hg, if_neg, not_false_iff, List.map_map]
    have hcomp :
        (List.map ((fun p => (p.1, p.2.1)) ∘ fun p => (p.1, tickTimer nowMs p.1 p.2))
          s.timers) =
        List.map (fun p => (p.1, (tickTimer nowMs p.1 p.2).1)) s.timers := by
      apply List.map_congr_left
      intro p _
      rfl
    rw [hcomp, lookup_map_step s.timers (fun k u => (tickTimer nowMs k u).1) id, hl]
    simp [tickTimer_paused nowMs id t h]

/-- A paused timer is untouched by any sequence of tick invocations. -/
theorem runTicks_preserves_paused (times : List Nat) :
    ∀ (s : AppState) (id : String) (t : TimerState),
      s.timers.lookup id = some t → t.isRunning = false →
      (runTicks s times).timers.lookup id = some t := by
  induction times with
  | nil => intro s id t hl _; exact hl
  | cons n rest ih =>
    intro s id t hl h
    have h1 := tick_preserves_paused s n id t hl h
    exact ih (tick s n) id t h1 h

set_option maxRecDepth 4000 in
/-- C5 counterexample: a countdown pinned to an absolute target time,
paused with 120 s remaining, ticked 10 times while paused, then resumed
10 s after pausing, reads 110 s remaining — not approximately 120 s —
because resuming recomputes the remaining time from the deadline. -/
theorem c5_target_resume_counterexample :
    ((c5PausedTicked.timers.lookup "5").map
        (fun t => (t.mode, t.isRunning, t.remainingSeconds, t.targetTimeMs)) =
      some (TimerMode.countdown, false, some 120, some 1000130000)) ∧
    ((c5Resumed.timers.lookup "5").map
        (fun t => (t.remainingSeconds, t.isRunning)) = some (some 110, true)) := by
  decide

/-- C5 amended: for a paused countdown with 120 s remaining and no
absolute target time, any number of tick invocations while paused leaves
it untouched, and resuming restores `isRunning` with exactly 120 s
remaining; a target-time countdown instead recomputes its remaining
seconds from the deadline on resume. -/
theorem c5_paused_countdown_keeps_remaining (s : AppState) (id : String)
    (t : TimerState) (times : List Nat) (resumeMs : Nat)
    (hl : s.timers.lookup id = some t)
    (hmode : t.mode = TimerMode.countdown)
    (hpaused : t.isRunning = false)
    (hrem : t.remainingSeconds = some 120)
    (htarget : t.targetTimeMs = none) :
    ((pauseResumeTimer (runTicks s times) id resumeMs).timers.lookup id).map
        (fun u => (u.remainingSeconds, u.isRunning)) = some (some 120, true) := by
  have hl' := runTicks_preserves_paused times s id t hl hpaused
  unfold pauseResumeTimer
  rw [hl']
  simp only [hpaused, Bool.false_eq_true, if_neg, not_false_iff, hmode, htarget]
  rw [lookup_set_self]
  simp [hrem]

/-- Witness for C5 amended: the concrete paused 120 s countdown, ticked
ten times while paused and resumed at 11000 ms, still reads 120 s. -/
theorem c5_paused_countdown_keeps_remaining_witness :
    ((pauseResumeTimer
        (runTicks pausedSampleState
          [1000, 2000, 3000, 4000, 5000, 6000, 7000, 8000, 9000, 10000])
        "9" 11000).timers.lookup "9").map
      (fun u => (u.remainingSeconds, u.isRunning)) = some (some 120, true) :=
  c5_paused_countdown_keeps_remaining pausedSampleState "9" pausedCountdownSample
    [1000, 2000, 3000, 4000, 5000, 6000, 7000, 8000, 9000, 10000] 11000
    rfl rfl rfl rfl rfl

set_option maxRecDepth 4000 in
/-- C8 counterexample: a reachable run in which the countdown expires in
the tick at millisecond 1060000 (emitting its completion entry directly,
without touching the de-duplication cache) and the user completes the
same task in the same millisecond; the log then holds two entries with
the same id `1060000-1`. -/
theorem c8_duplicate_id_counterexample :
    c8Final.logs.map (fun e => e.id) = ["1060000-1", "1060000-1"] := by
  decide

/-- C8 amended: a log entry's id is the end-timestamp paired with the
task id; for the same task, entries whose end-milliseconds differ get
distinct ids, but two entries for the same task created in the same
millisecond share an id (reachable because the countdown-expiry path
bypasses the de-duplication guard). -/
theorem c8_id_distinct_across_ms (t1 t2 d1 d2 : Nat) (i tx1 tx2 : String)
    (tb1 tb2 : Tab) (hne : t1 ≠ t2) :
    (buildLogEntryFromFields i tx1 tb1 d1 t1).id ≠
      (buildLogEntryFromFields i tx2 tb2 d2 t2).id := by
  intro hEq
  apply hne
  have hid : Nat.repr t1 ++ "-" ++ i = Nat.repr t2 ++ "-" ++ i := hEq
  have hdata := congrArg String.data hid
  simp only [String.data_append] at hdata
  have h1 := List.append_cancel_right hdata
  have h2 := List.append_cancel_right h1
  exact nat_repr_injective t1 t2 (String.ext h2)

/-- Witness for C8 amended: entries for task "1" at 5000 ms and 5001 ms
have different ids. -/
theorem c8_id_distinct_across_ms_witness :
    (buildLogEntryFromFields "1" "a" Tab.goals 60 5000).id ≠
      (buildLogEntryFromFields "1" "a" Tab.goals 60 5001).id :=
  c8_id_distinct_across_ms 5000 5001 60 60 "1" "a" "a" Tab.goals Tab.goals
    (by decide)

/-- C7: on load, when the stored `lastResetDate` differs from today,
every task's `completed` flag is cleared in both categories and the date
is advanced to today, while logs and the stored task history are
returned unchanged; when the dates match, the items are returned
unchanged. -/
theorem c7_load_daily_reset (data : StoredData) (lastReset : Option String)
    (today : String) (hg hw : List String)
    (hh : data.taskHistory = some (hg, hw)) :
    (lastReset ≠ some today →
      loadStoredState (some data) lastReset today =
        { itemsGoals := data.itemsGoals.map (fun i => { i with completed := false })
          itemsWaste := data.itemsWaste.map (fun i => { i with completed := false })
          logs := data.logs
          historyGoals := hg
          historyWaste := hw
          lastResetDate := today } ∧
      (∀ i ∈ (loadStoredState (some data) lastReset today).itemsGoals,
        i.completed = false) ∧
      (∀ i ∈ (loadStoredState (some data) lastReset today).itemsWaste,
        i.completed = false)) ∧
    (lastReset = some today →
      loadStoredState (some data) lastReset today =
        { itemsGoals := data.itemsGoals
          itemsWaste := data.itemsWaste
          logs := data.logs
          historyGoals := hg
          historyWaste := hw
          lastResetDate := today }) := by
  constructor
  · intro hne
    have hload : loadStoredState (some data) lastReset today =
        { itemsGoals := data.itemsGoals.map (fun i => { i with completed := false })
          itemsWaste := data.itemsWaste.map (fun i => { i with completed := false })
          logs := data.logs
          historyGoals := hg
          historyWaste := hw
          lastResetDate := today } := by
      simp [loadStoredState, hh, hne]
    refine ⟨hload, ?_, ?_⟩ <;>
      · rw [hload]
        intro i hi
        simp only [List.mem_map] at hi
        obtain ⟨j, _, rfl⟩ := hi
        rfl
  · intro heq
    simp [loadStoredState, hh, heq]

/-- Witness for C7: loading the stored sample on a new day clears both
`completed` flags; loading it on the same day keeps them. -/
theorem c7_load_daily_reset_witness :
    loadStoredState (some storedSample) (some "Mon Oct 06 2025") "Tue Oct 07 2025" =
      { itemsGoals := [{ id := "1", text := "plan", completed := false, createdDate := some 0 }]
        itemsWaste := [{ id := "2", text := "scroll", completed := false, createdDate := some 0 }]
        logs := storedSample.logs
        historyGoals := ["plan"]
        historyWaste := ["scroll"]
        lastResetDate := "Tue Oct 07 2025" } ∧
    loadStoredState (some storedSample) (some "Tue Oct 07 2025") "Tue Oct 07 2025" =
      { itemsGoals := storedSample.itemsGoals
        itemsWaste := storedSample.itemsWaste
        logs := storedSample.logs
        historyGoals := ["plan"]
        historyWaste := ["scroll"]
        lastResetDate := "Tue Oct 07 2025" } :=
  ⟨((c7_load_daily_reset storedSample (some "Mon Oct 06 2025") "Tue Oct 07 2025"
      ["plan"] ["scroll"] rfl).1 (by decide)).1,
   (c7_load_daily_reset storedSample (some "Tue Oct 07 2025") "Tue Oct 07 2025"
      ["plan"] ["scroll"] rfl).2 rfl⟩

/-- `items` is unaffected by replacing the timers map. -/
theorem items_update_timers (s : AppState) (x : Timers) (tab : Tab) :
    ({ s with timers := x } : AppState).items tab = s.items tab := by
  cases tab <;> rfl

/-- `completeTask` always clears the task's timer and nothing else in
the timers map. -/
theorem completeTask_timers (tab : Tab) (s : AppState) (id : String) (nowMs : Nat) :
    (completeTask tab s id nowMs).timers = Timers.erase s.timers id := by
  unfold completeTask
  simp only [setItems_timers]
  congr 1
  split <;> (try split) <;> (try split) <;> (try split) <;>
    (first | rw [appendLogEntry_timers] | rfl)

/-- C10: for a task present in the current list, `toggleComplete` removes
that task's timer state — both when completing and when un-completing —
and leaves the timer state of every other id unchanged. -/
theorem c10_toggle_clears_timer (tab : Tab) (s : AppState) (id : String) (nowMs : Nat) :
    ((∃ i, (s.items tab).find? (fun it => it.id == id) = some i) →
      (toggleComplete tab s id nowMs).timers.lookup id = none) ∧
    (∀ k, k ≠ id →
      (toggleComplete tab s id nowMs).timers.lookup k = s.timers.lookup k) := by
  constructor
  · rintro ⟨i, hi⟩
    unfold toggleComplete
    rw [hi]
    simp only [ite_self]
    rw [completeTask_timers]
    exact lookup_erase_self s.timers id
  · intro k hk
    unfold toggleComplete
    cases hfind : (s.items tab).find? (fun it => it.id == id) with
    | none => rfl
    | some i =>
      simp only [ite_self]
      rw [completeTask_timers]
      exact lookup_erase_ne s.timers id k hk

/-- Witness for C10: toggling task "9" (which has a running timer)
clears its timer and leaves the (absent) timer of id "8" unchanged. -/
theorem c10_toggle_clears_timer_witness :
    (toggleComplete Tab.goals sampleState "9" 7000).timers.lookup "9" = none ∧
    (toggleComplete Tab.goals sampleState "9" 7000).timers.lookup "8" =
      sampleState.timers.lookup "8" :=
  ⟨(c10_toggle_clears_timer Tab.goals sampleState "9" 7000).1 ⟨sampleItem, rfl⟩,
   (c10_toggle_clears_timer Tab.goals sampleState "9" 7000).2 "8" (by decide)⟩

/-- `toggleItemUpdate` never changes an item's id. -/
theorem toggleItemUpdate_id (ts : Option Nat) (id : String) (x : Item) :
    (toggleItemUpdate ts id x).id = x.id := by
  unfold toggleItemUpdate
  by_cases hx : (x.id == id) = true <;> simp [hx]

/-- Searching by id commutes with an id-preserving map. -/
theorem find?_map_id_pred (l : List Item) (f : Item → Item) (id : String)
    (hf : ∀ x, (f x).id = x.id) :
    (l.map f).find? (fun e => e.id == id) =
      (l.find? (fun e => e.id == id)).map f := by
  rw [List.find?_map]
  have hpf : ((fun (e : Item) => e.id == id) ∘ f) = fun (e : Item) => e.id == id := by
    funext x
    simp [Function.comp, hf]
  rw [hpf]

/-- Membership in `insertIdx` comes from the inserted element or the
original list. -/
theorem mem_insertIdx_or {α : Type} :
    ∀ (n : Nat) (a : α) (l : List α) (x : α), x ∈ l.insertIdx n a → x = a ∨ x ∈ l := by
  intro n
  induction n with
  | zero =>
    intro a l x hx
    rw [List.insertIdx_zero] at hx
    rcases List.mem_cons.mp hx with h | h
    · exact Or.inl h
    · exact Or.inr h
  | succ n ih =>
    intro a l x hx
    cases l with
    | nil =>
      rw [List.insertIdx_succ_nil] at hx
      simp at hx
    | cons y l =>
      rw [List.insertIdx_succ_cons] at hx
      rcases List.mem_cons.mp hx with h | h
      · exact Or.inr (by simp [h])
      · rcases ih a l x h with h' | h'
        · exact Or.inl h'
        · exact Or.inr (by simp [h'])

/-- The list produced by `completeTask` (via `completeTaskList`) is
partitioned, with the toggled item at the end of its segment. -/
theorem completeTaskList_partition (items : List Item) (ts : Option Nat) (id : String) :
    ∃ a b, completeTaskList items ts id = a ++ b ∧
      (∀ x ∈ a, x.completed = false) ∧
      (∀ x ∈ b, x.completed = true) ∧
      (∀ i, items.find? (fun it => it.id == id) = some i →
        (i.completed = false →
          (completeTaskList items ts id).getLast?.map Item.id = some id) ∧
        (i.completed = true → a.getLast?.map Item.id = some id)) := by
  have hfind : (items.map (toggleItemUpdate ts id)).find? (fun e => e.id == id) =
      (items.find? (fun e => e.id == id)).map (toggleItemUpdate ts id) :=
    find?_map_id_pred items _ id (toggleItemUpdate_id ts id)
  simp only [completeTaskList, hfind]
  cases hL : items.find? (fun e => e.id == id) with
  | none =>
    refine ⟨_, _, rfl, ?_, ?_, ?_⟩
    · intro x hx
      have := (List.mem_filter.mp hx).2
      simpa using this
    · intro x hx
      have := (List.mem_filter.mp hx).2
      simpa using this
    · intro i hi
      cases hi
  | some i =>
    have hp : (i.id == id) = true := by
      have := List.find?_some hL
      simpa using this
    have ht : (toggleItemUpdate ts id i).completed = !i.completed := by
      unfold toggleItemUpdate
      simp [hp]
    have htid : (toggleItemUpdate ts id i).id = id := by
      rw [toggleItemUpdate_id]
      simpa using hp
    by_cases hc : i.completed = true
    · have htc : (toggleItemUpdate ts id i).completed = false := by
        rw [ht, hc]; rfl
      simp only [Option.map_some']
      rw [if_neg (show ¬(toggleItemUpdate ts id i).completed = true by simp [htc])]
      refine ⟨_, _, rfl, ?_, ?_, ?_⟩
      · intro x hx
        rcases List.mem_append.mp hx with h | h
        · have := (List.mem_filter.mp h).2
          simpa using this
        · rw [List.mem_singleton.mp h]
          exact htc
      · intro x hx
        have := (List.mem_filter.mp hx).2
        simpa using this
      · intro i' hi'
        injection hi' with hii
        subst hii
        constructor
        · intro hfalse
          rw [hc] at hfalse
          cases hfalse
        · intro _
          rw [List.getLast?_concat]
          simp [htid]
    · have hc' : i.completed = false := by
        cases h : i.completed
        · rfl
        · exact absurd h hc
      have htc : (toggleItemUpdate ts id i).completed = true := by
        rw [ht, hc']; rfl
      simp only [Option.map_some']
      rw [if_pos htc]
      refine ⟨_, _, rfl, ?_, ?_, ?_⟩
      · intro x hx
        have := (List.mem_filter.mp hx).2
        simpa using this
      · intro x hx
        rcases List.mem_append.mp hx with h | h
        · have := (List.mem_filter.mp h).2
          simpa using this
        · rw [List.mem_singleton.mp h]
          exact htc
      · intro i' hi'
        injection hi' with hii
        subst hii
        constructor
        · intro _
          rw [← List.append_assoc, List.getLast?_concat]
          simp [htid]
        · intro htrue
          rw [hc'] at htrue
          cases htrue

/-- The category list after `completeTask` is `completeTaskList` applied
to the previous list and the timer snapshot. -/
theorem completeTask_items (tab : Tab) (s : AppState) (id : String) (nowMs : Nat) :
    (completeTask tab s id nowMs).items tab =
      completeTaskList (s.items tab) (timerSnapshotSeconds (s.timers.lookup id)) id := by
  simp only [completeTask, items_update_timers, setItems_items_self]

/-- C9: `completeTask` always yields a list partitioned as incomplete
items followed by completed items, a newly completed item last and a
newly un-completed item last among the incomplete items; `reorderItems`
either leaves the list unchanged or yields such a partitioned list. -/
theorem c9_complete_and_reorder_partition :
    (∀ (tab : Tab) (s : AppState) (id : String) (nowMs : Nat),
      ∃ a b, (completeTask tab s id nowMs).items tab = a ++ b ∧
        (∀ x ∈ a, x.completed = false) ∧
        (∀ x ∈ b, x.completed = true) ∧
        (∀ i, (s.items tab).find? (fun it => it.id == id) = some i →
          (i.completed = false →
            ((completeTask tab s id nowMs).items tab).getLast?.map Item.id = some id) ∧
          (i.completed = true → a.getLast?.map Item.id = some id))) ∧
    (∀ (list : List Item) (sourceId targetId : String),
      reorderItems list sourceId targetId = list ∨
      ∃ a b, reorderItems list sourceId targetId = a ++ b ∧
        (∀ x ∈ a, x.completed = false) ∧ (∀ x ∈ b, x.completed = true)) := by
  constructor
  · intro tab s id nowMs
    rw [completeTask_items]
    exact completeTaskList_partition (s.items tab)
      (timerSnapshotSeconds (s.timers.lookup id)) id
  · intro list sourceId targetId
    unfold reorderItems
    by_cases hst : (sourceId == targetId) = true
    · left
      simp [hst]
    · have hst' : (sourceId == targetId) = false := by simpa using hst
      simp only [hst', Bool.false_eq_true, if_neg, not_false_iff]
      cases hsrc : list.find? (fun i => i.id == sourceId) with
      | none => left; rfl
      | some source =>
        by_cases hcomp : source.completed = true
        · left
          simp [hcomp]
        · have hcomp' : source.completed = false := by
            cases h : source.completed
            · rfl
            · exact absurd h hcomp
          simp only [hcomp', Bool.false_eq_true, if_neg, not_false_iff]
          have hmema : ∀ x ∈ (list.filter
              (fun i => !i.completed && !(i.id == sourceId))) ++ [source],
              x.completed = false := by
            intro x hx
            rcases List.mem_append.mp hx with h | h
            · have := (List.mem_filter.mp h).2
              simp only [Bool.and_eq_true] at this
              simpa using this.1
            · rw [List.mem_singleton.mp h]
              exact hcomp'
          have hmemb : ∀ x ∈ list.filter (fun i => i.completed),
              x.completed = true := by
            intro x hx
            exact (List.mem_filter.mp hx).2
          split
          · right
            exact ⟨_, _, rfl, hmema, hmemb⟩
          · cases hidx : (list.filter
                (fun i => !i.completed && !(i.id == sourceId))).findIdx?
                (fun i => i.id == targetId) with
            | none => left; rfl
            | some toIndex =>
              right
              refine ⟨_, _, rfl, ?_, hmemb⟩
              intro x hx
              rcases mem_insertIdx_or toIndex source _ x hx with h | h
              · rw [h]; exact hcomp'
              · have := (List.mem_filter.mp h).2
                simp only [Bool.and_eq_true] at this
                simpa using this.1

/-- Witness for C9: completing the incomplete task "9" in the sample
state puts it at the end of the goals list, and a concrete reorder call
satisfies the unchanged-or-partitioned disjunction. -/
theorem c9_complete_and_reorder_partition_witness :
    ((completeTask Tab.goals sampleState "9" 7000).items Tab.goals).getLast?.map Item.id =
      some "9" ∧
    (reorderItems [sampleItem] "9" "8" = [sampleItem] ∨
      ∃ a b, reorderItems [sampleItem] "9" "8" = a ++ b ∧
        (∀ x ∈ a, x.completed = false) ∧ (∀ x ∈ b, x.completed = true)) := by
  constructor
  · obtain ⟨a, b, heq, ha, hb, hcond⟩ :=
      c9_complete_and_reorder_partition.1 Tab.goals sampleState "9" 7000
    exact (hcond sampleItem rfl).1 rfl
  · exact c9_complete_and_reorder_partition.2 [sampleItem] "9" "8"

end GoalsTracker
